import Mathlib

/-!
Shallow embedding of the reaction-tally engine of `inatcog/listeners.py`
(dfloer/dronefly).

The embed description (`embed.description`) is modelled as a head line of
free text (the taxon summary, which matches none of the tally patterns)
followed by a list of lines (`Desc.rest`).  Between any two consecutive
lines of the model sits exactly one newline of the real string, so a regex
of the source whose match is anchored at `\n` corresponds to a predicate on
the lines of `rest`.  Every definition carries a comment naming the source
construct it embeds.  The header banner literals live in the repository's
`taxa` module, which is not part of the sources; they are modelled as
dedicated line constructors (`Line.userHeader` / `Line.placeHeader`), which
is all the listeners code observes of them.
-/

/-- Literal-list prefix test: `listStarts pat l` holds when `l` begins with
`pat`.  Compiles the anchored literal part of the source's patterns (the
plain `inat_user.login` and the `re.escape`d `place.display_name`). -/
def listStarts : List Char → List Char → Bool
  | [], _ => true
  | _ :: _, [] => false
  | c :: cs, d :: ds => if c = d then listStarts cs ds else false

/-- Substring test used to compile `re.search(r"\*total\*", ...)`. -/
def listHasSub (pat : List Char) : List Char → Bool
  | [] => pat.isEmpty
  | l@(_ :: t) => listStarts pat l || listHasSub pat t

/-- The `*total*` marker: subject key of the synthesized total line
(`r"\) \*total\*"` in `update_totals` / `update_place_totals`). -/
def totalMark : List Char := ['*', 't', 'o', 't', 'a', 'l', '*']

/-- The `&place_id=` literal of the final findall in `update_place_totals`. -/
def ampPlaceId : List Char := ['&', 'p', 'l', 'a', 'c', 'e', '_', 'i', 'd', '=']

/-- Character class `[-_a-z0-9]` of the `user_id` capture group. -/
def isUserChar (c : Char) : Bool :=
  (c == '-') || (c == '_') ||
    (decide ('a' ≤ c) && decide (c ≤ 'z')) || (decide ('0' ≤ c) && decide (c ≤ '9'))

/-- Character class `[0-9 \(\)]` of the count expression between brackets. -/
def isCountChar (c : Char) : Bool :=
  c.isDigit || (c == ' ') || (c == '(') || (c == ')')

/-- One tally entry line `[counts](link) subject`. -/
structure Entry where
  counts : String
  link : String
  subject : String
deriving DecidableEq

/-- One line of the description after the head line.  `text` lines are free
prose that matches none of the tally regexes; the two header constructors
stand for the fixed banner literals `TAXON_COUNTS_HEADER` and
`TAXON_PLACES_HEADER` of the (absent) `taxa` module. -/
inductive Line where
  | userHeader
  | placeHeader
  | entry (e : Entry)
  | text (s : String)
deriving DecidableEq

/-- The embed description: head line plus the following lines. -/
structure Desc where
  head : String
  rest : List Line
deriving DecidableEq

/-- The rendered text of an entry line. -/
def renderEntry (e : Entry) : String :=
  "[" ++ e.counts ++ "](" ++ e.link ++ ") " ++ e.subject

/-- Whether the rendered line is matched by `\[[0-9 \(\)]+\]\(.*?\) `:
nonempty count expression over its class, and a link free of `)` and of
newlines (so the lazy `.*?\)` ends exactly at the closing parenthesis). -/
def entryLineMatch (e : Entry) : Bool :=
  (!e.counts.toList.isEmpty && e.counts.toList.all isCountChar) &&
    e.link.toList.all (fun c => !(c == ')') && !(c == '\n'))

/-- Line-level compilation of `r"\n\[[0-9 \(\)]+?\]\(.*?\) \*total\*"`:
an entry line whose subject starts with the `*total*` marker.  For every
card the code produces the matching subject is exactly `*total*`, so
deleting the whole line agrees with the regex substitution. -/
def matchesTotal : Line → Bool
  | .entry e => entryLineMatch e && listStarts totalMark e.subject.toList
  | _ => false

/-- Line-level compilation of `counts_pat = r"(\n|^)\[[0-9 \(\)]+\]\(.*?\) " + key`:
an entry line whose subject starts with `key` (the pattern has no trailing
anchor, so this is a prefix test, not an equality test). -/
def matchesKey (key : String) : Line → Bool
  | .entry e => entryLineMatch e && listStarts key.toList e.subject.toList
  | _ => false

/-- `re.search(counts_pat, description)` of `edit_totals_locked` /
`edit_place_totals_locked` (listeners.py lines 365 and 449). -/
def keyPresent (key : String) (d : Desc) : Bool :=
  d.rest.any (matchesKey key)

/-- Capture of `r"\n\[[0-9 \(\)]+\]\(.*?\) (?P<user_id>[-_a-z0-9]+)"` on one
line: the maximal run of class characters at the start of the subject,
required nonempty. -/
def lineUserKey : Line → Option String
  | .entry e =>
    if entryLineMatch e then
      match e.subject.toList.takeWhile isUserChar with
      | [] => none
      | k => some (String.mk k)
    else none
  | _ => none

/-- `re.findall` of the user pattern over the description (lines 322-324 and
339-341 of listeners.py).  The pattern ends in its capture group, so it
consumes no newline and every entry line of `rest` is scanned. -/
def userMatches (d : Desc) : List String :=
  d.rest.filterMap lineUserKey

/-- `re.sub(r"\n\[[0-9 \(\)]+?\]\(.*?\) \*total\*", "", description)`. -/
def removeTotals (d : Desc) : Desc :=
  ⟨d.head, d.rest.filter (fun l => !matchesTotal l)⟩

/-- `re.sub(TAXON_COUNTS_HEADER_PAT, "", description)`.  Modelled from the
spec: the pattern is defined in the absent `taxa` module; the spec says the
header is a fixed literal banner line removed together with the last entry. -/
def removeUserHeader (d : Desc) : Desc :=
  ⟨d.head, d.rest.filter (fun l => !(l == Line.userHeader))⟩

/-- `re.sub(TAXON_PLACES_HEADER_PAT, "", description)`.  Modelled from the
spec, as for `removeUserHeader`. -/
def removePlaceHeader (d : Desc) : Desc :=
  ⟨d.head, d.rest.filter (fun l => !(l == Line.placeHeader))⟩

/-- `re.sub(counts_pat + r".*?((?=\n)|$)", "", description)`: deletes every
line whose subject starts with `key`, together with its preceding newline
(the lookahead leaves the following newline in place, so whole lines are
removed; `re.sub` replaces all occurrences). -/
def removeKey (key : String) (d : Desc) : Desc :=
  ⟨d.head, d.rest.filter (fun l => !matchesKey key l)⟩

/-- `description += "\n" + line`. -/
def appendLine (l : Line) (d : Desc) : Desc :=
  ⟨d.head, d.rest ++ [l]⟩

/-- Scan of `re.findall(r"\n\[[0-9 \(\)]+\]\(.*?\) (.*?)(\n|$)", description)`
(lines 392 and implicitly the place section).  The trailing `(\n|$)` group
consumes the newline that separates a matched entry line from the next
line, so the line directly after a match can never start a match itself.
The Boolean argument records whether the newline before the current head
line was consumed by the previous match. -/
def placeScanList : Bool → List Line → List String
  | _, [] => []
  | true, _ :: ls => placeScanList false ls
  | false, l :: ls =>
    match l with
    | .entry e =>
      if entryLineMatch e then e.subject :: placeScanList true ls
      else placeScanList false ls
    | _ => placeScanList false ls

/-- The place findall over a description (the newline between the head line
and the first of `rest` is never consumed before the scan starts). -/
def placeMatches (d : Desc) : List String :=
  placeScanList false d.rest

/-- Attempt of `&place_id=(\d+?)&` at one position of the link: the literal,
then at least one digit, then `&` directly after the digits (the lazy
`\d+?` cannot cross a non-digit, and the regex fails here otherwise). -/
def placeIdAt (l : List Char) : Option String :=
  if listStarts ampPlaceId l then
    let r := l.drop ampPlaceId.length
    let ds := r.takeWhile Char.isDigit
    if ds.isEmpty then none
    else
      match r.drop ds.length with
      | '&' :: _ => some (String.mk ds)
      | _ => none
  else none

/-- Backtracking scan of the lazy `\(.*?&place_id=(\d+?)&`: the first
position of the link where `placeIdAt` succeeds. -/
def findPlaceIdAux : List Char → Option String
  | [] => none
  | l@(_ :: t) =>
    match placeIdAt l with
    | some s => some s
    | none => findPlaceIdAux t

/-- The `place_id` captured from a link, if any. -/
def extractPlaceId (link : String) : Option String :=
  findPlaceIdAux link.toList

/-- One line of the final place findall
`r"\n\[[0-9 \(\)]+\]\(.*?&place_id=(?P<place_id>\d+?)&.*?\) .*?(?:(?=\n|$))"`
(lines 409-412).  The terminator is a lookahead, so no newline is consumed
and every entry line of `rest` is scanned. -/
def linePlaceId : Line → Option String
  | .entry e => if entryLineMatch e then extractPlaceId e.link else none
  | _ => none

/-- All captured place ids of the description. -/
def placeIdMatches (d : Desc) : List String :=
  d.rest.filterMap linePlaceId

/-- The reaction action strings `"add"`, `"remove"`, `"toggle"`. -/
inductive TallyAction where
  | add
  | remove
  | toggle
deriving DecidableEq

/-- The `if action == "remove"` branch pair of `update_totals`
(lines 325-337): header removed when the findall counted exactly one match,
then the key's lines removed; otherwise header appended when the findall
counted none, then the freshly formatted entry appended. -/
def mutate_user (uNew : Entry) (login : String) (a : TallyAction) (d1 : Desc) : Desc :=
  if a = TallyAction.remove then
    removeKey login (if (userMatches d1).length = 1 then removeUserHeader d1 else d1)
  else
    appendLine (Line.entry uNew)
      (if (userMatches d1).isEmpty then appendLine Line.userHeader d1 else d1)

/-- Lines 339-349 of `update_totals`: recount the user matches and append a
fresh total line (the formatter applied to the comma-joined captures) when
more than one was counted. -/
def retotal_user (uTot : String → Entry) (d2 : Desc) : Desc :=
  if 1 < (userMatches d2).length then
    appendLine (Line.entry (uTot (String.intercalate "," (userMatches d2)))) d2
  else d2

/-- `update_totals(description, taxon, inat_user, action, counts_pat)`
(lines 315-349).  `uNew` is the value of
`format_user_taxon_counts(self, inat_user, taxon, place_id)` and `uTot`
models the same formatter applied to a comma-joined login list; both live
in the absent `taxa` module and are taken as parameters. -/
def update_totals (uNew : Entry) (uTot : String → Entry) (login : String)
    (a : TallyAction) (d : Desc) : Desc :=
  retotal_user uTot (mutate_user uNew login a (removeTotals d))

/-- The remove/add branch pair of `update_place_totals` (lines 393-407),
with the newline-consuming findall (`placeMatches`) deciding the header. -/
def mutate_place (pNew : Entry) (disp : String) (a : TallyAction) (d1 : Desc) : Desc :=
  if a = TallyAction.remove then
    removeKey disp (if (placeMatches d1).length = 1 then removePlaceHeader d1 else d1)
  else
    appendLine (Line.entry pNew)
      (if (placeMatches d1).isEmpty then appendLine Line.placeHeader d1 else d1)

/-- Lines 409-420 of `update_place_totals`: recount via the `place_id`
findall and append a fresh total over the comma-joined ids when more than
one was counted. -/
def retotal_place (pTot : String → Entry) (d2 : Desc) : Desc :=
  if 1 < (placeIdMatches d2).length then
    appendLine (Line.entry (pTot (String.intercalate "," (placeIdMatches d2)))) d2
  else d2

/-- `update_place_totals(description, taxon, place, action, place_counts_pat)`
(lines 383-420), with `pNew` / `pTot` the outputs of
`format_place_taxon_counts` for the place and for a comma-joined id list. -/
def update_place_totals (pNew : Entry) (pTot : String → Entry) (disp : String)
    (a : TallyAction) (d : Desc) : Desc :=
  retotal_place pTot (mutate_place pNew disp a (removeTotals d))

/-- `re.search(r"\*total\*", embed.description)` over a rendered line. -/
def lineHasTotalMark : Line → Bool
  | .entry e => listHasSub totalMark (renderEntry e).toList
  | .text s => listHasSub totalMark s.toList
  | _ => false

/-- `re.search(r"\*total\*", embed.description)` over the whole description
(the marker contains no newline, so any occurrence lies within one line). -/
def hasTotalMark (d : Desc) : Bool :=
  listHasSub totalMark d.head.toList || d.rest.any lineHasTotalMark

/-- Footer set by `edit_totals_locked` when the new description mentions a
total. -/
def userFooter : String :=
  "User counts may not add up to the total if they changed since they were added. Remove, then add them again to update their counts."

/-- Footer set by `edit_place_totals_locked` when the new description
mentions a total. -/
def placeFooter : String :=
  "Non-overlapping place counts may not add up to the total if they changed since they were added. Remove, then add them again to update their counts."

/-- The message as re-fetched under the lock: its embed description and
footer. -/
structure FetchedMsg where
  description : Desc
  footer : String
deriving DecidableEq

/-- Result of one `edit_totals_locked` / `edit_place_totals_locked` run:
the fetch raised NotFound and the function returned silently; the guard
failed and nothing was written (the message keeps every part as fetched);
`msg.edit` succeeded with the new description and footer; or `msg.edit`
raised because the message was deleted between fetch and write — the
source wraps only the fetch in try/except, so this exception propagates. -/
inductive EditOutcome where
  | notFoundNoop
  | unchanged (m : FetchedMsg)
  | wrote (m : FetchedMsg)
  | editRaised (m : FetchedMsg)
deriving DecidableEq

/-- Lines 366-367 / 450-451: `if action == "toggle": action = "remove" if mat else "add"`. -/
def resolve_action (key : String) (d : Desc) (a : TallyAction) : TallyAction :=
  if a = TallyAction.toggle then (if keyPresent key d then TallyAction.remove else TallyAction.add) else a

/-- The guard `(mat and action == "remove") or (not mat and action == "add")`
evaluated on the resolved action (lines 369 / 453). -/
def mutation_needed (key : String) (d : Desc) (a : TallyAction) : Bool :=
  match resolve_action key d a with
  | TallyAction.remove => keyPresent key d
  | TallyAction.add => !keyPresent key d
  | TallyAction.toggle => false

/-- `edit_totals_locked(msg, taxon, inat_user, action, counts_pat)`
(lines 351-381), run under the per-message lock.  `fetched` is the result
of the re-fetch (`none` models `discord.errors.NotFound`), and
`aliveAtWrite` tells whether the message still exists when `msg.edit` runs. -/
def edit_totals_locked (uNew : Entry) (uTot : String → Entry)
    (fetched : Option FetchedMsg) (aliveAtWrite : Bool)
    (login : String) (a : TallyAction) : EditOutcome :=
  match fetched with
  | none => EditOutcome.notFoundNoop
  | some m =>
    if mutation_needed login m.description a then
      let d' := update_totals uNew uTot login (resolve_action login m.description a) m.description
      let f' := if hasTotalMark d' then userFooter else ""
      if aliveAtWrite then EditOutcome.wrote ⟨d', f'⟩ else EditOutcome.editRaised ⟨d', f'⟩
    else EditOutcome.unchanged m

/-- `edit_place_totals_locked(msg, taxon, place, action, place_counts_pat)`
(lines 435-465). -/
def edit_place_totals_locked (pNew : Entry) (pTot : String → Entry)
    (fetched : Option FetchedMsg) (aliveAtWrite : Bool)
    (disp : String) (a : TallyAction) : EditOutcome :=
  match fetched with
  | none => EditOutcome.notFoundNoop
  | some m =>
    if mutation_needed disp m.description a then
      let d' := update_place_totals pNew pTot disp (resolve_action disp m.description a) m.description
      let f' := if hasTotalMark d' then placeFooter else ""
      if aliveAtWrite then EditOutcome.wrote ⟨d', f'⟩ else EditOutcome.editRaised ⟨d', f'⟩
    else EditOutcome.unchanged m

/-- The four reaction emoji the dispatcher distinguishes. -/
inductive Emoji where
  | hash
  | pencil
  | house
  | pin
  | other
deriving DecidableEq

/-- Which flow `handle_member_reaction` dispatches to, with the action it
passes along. -/
inductive Route where
  | memberSelf (a : TallyAction)
  | memberByName
  | placeSelf (a : TallyAction)
  | placeByName
  | noRoute
deriving DecidableEq

/-- `re.search(TAXON_COUNTS_HEADER_PAT, description)` (line 476).  Modelled
from the spec: the banner literal of the absent `taxa` module is the
`Line.userHeader` constructor. -/
def hasUsersHeader (d : Desc) : Bool :=
  d.rest.any (fun l => l == Line.userHeader)

/-- `re.search(TAXON_PLACES_HEADER_PAT, description)` (line 477). -/
def hasPlacesHeader (d : Desc) : Bool :=
  d.rest.any (fun l => l == Line.placeHeader)

/-- The dispatch of lines 479-493: user-dimension gestures only when no
places header was found, place gestures only when no users header was
found.  The two sequential `if` blocks of the source touch disjoint emoji,
so their composition is this case split. -/
def route (emoji : Emoji) (hasUsers hasPlaces : Bool) (a : TallyAction) : Route :=
  if hasPlaces = false then
    match emoji with
    | Emoji.hash => Route.memberSelf a
    | Emoji.pencil => Route.memberByName
    | Emoji.house => if hasUsers = false then Route.placeSelf a else Route.noRoute
    | Emoji.pin => if hasUsers = false then Route.placeByName else Route.noRoute
    | Emoji.other => Route.noRoute
  else
    if hasUsers = false then
      match emoji with
      | Emoji.house => Route.placeSelf a
      | Emoji.pin => Route.placeByName
      | _ => Route.noRoute
    else Route.noRoute

/-- The action string carried by the raw event: `on_raw_reaction_add`
dispatches with `"add"`, `on_raw_reaction_remove` with `"remove"`
(lines 538 and 549). -/
def reaction_event_action (isAdd : Bool) : TallyAction :=
  if isAdd then TallyAction.add else TallyAction.remove

/-- Dispatch of one raw reaction event on a message whose first embed has
description `d`. -/
def raw_reaction_route (isAdd : Bool) (emoji : Emoji) (d : Desc) : Route :=
  route emoji (hasUsersHeader d) (hasPlacesHeader d) (reaction_event_action isAdd)

/-- `is_query_response(response)` (lines 204-219): false exactly when the
reply content starts with one of the valid prefixes of this bot or of the
configured other bots.  An empty prefix list joins to the empty
alternation, whose zero-width match makes every reply count as foreign. -/
def is_query_response (allPrefixes : List String) (content : String) : Bool :=
  match allPrefixes with
  | [] => false
  | _ => !(allPrefixes.any (fun p => listStarts p.toList content.toList))

/-- Observable effects of one `query_locked` run (lines 201-260). -/
structure QueryEffects where
  promptSent : Bool
  promptDeleted : Bool
  replyDeleted : Bool
  raisedAttr : Bool
  response : Option String
deriving DecidableEq

/-- `query_locked(msg, user, prompt, timeout)`.  `lockHeld` is whether the
per-user lock is already taken on entry; `reply` is the outcome of
`bot.wait_for` (`none` models `asyncio.TimeoutError`);
`promptDeleteFails` / `deleteMessagesFails` tell whether the platform
delete calls raise `discord.HTTPException`.  On timeout the early `return`
sits inside the `contextlib.suppress` block after `query.delete()`, so a
failing delete suppresses the exception, skips the return, and the code
falls through to `is_query_response(None)`, which raises `AttributeError`
on `response.content` — recorded as `raisedAttr`. -/
def query_locked (lockHeld : Bool) (allPrefixes : List String)
    (reply : Option String) (promptDeleteFails deleteMessagesFails : Bool) :
    QueryEffects :=
  if lockHeld then ⟨false, false, false, false, none⟩
  else
    match reply with
    | none =>
      if promptDeleteFails then ⟨true, false, false, true, none⟩
      else ⟨true, true, false, false, none⟩
    | some content =>
      if is_query_response allPrefixes content then
        if deleteMessagesFails then ⟨true, !promptDeleteFails, false, false, some content⟩
        else ⟨true, true, true, false, some content⟩
      else ⟨true, !promptDeleteFails, false, false, none⟩

/-- Result of `maybe_update_member_by_name` (lines 262-286): unknown user
(no prompt at all), falsy response (no mutation), converter failure
(apology message, no mutation), the AttributeError propagating out of
`query_locked`, or the call into the tally mutator with the resolved
member and the literal action `"toggle"`. -/
inductive ByNameOutcome where
  | noUser
  | noResponse
  | badArgument
  | errored
  | mutated (who : String) (a : TallyAction)
deriving DecidableEq

/-- `maybe_update_member_by_name(msg, user)`.  `userKnown` is whether
`user_table.get_user` succeeds, `convert` models
`ContextMemberConverter.convert` (`none` for `BadArgument`). -/
def maybe_update_member_by_name (userKnown lockHeld : Bool)
    (allPrefixes : List String) (reply : Option String)
    (promptDeleteFails deleteMessagesFails : Bool)
    (convert : String → Option String) : ByNameOutcome :=
  if !userKnown then ByNameOutcome.noUser
  else
    let q := query_locked lockHeld allPrefixes reply promptDeleteFails deleteMessagesFails
    if q.raisedAttr then ByNameOutcome.errored
    else
      match q.response with
      | some content =>
        match convert content with
        | some who => ByNameOutcome.mutated who TallyAction.toggle
        | none => ByNameOutcome.badArgument
      | none => ByNameOutcome.noResponse

/-- Decoder for one line as a non-total entry (spec §4.1: a line matching
the entry pattern, with the `*total*` line excluded). -/
def entryNT : Line → Option Entry
  | Line.entry e =>
    if entryLineMatch e then
      (if listStarts totalMark e.subject.toList then none else some e)
    else none
  | _ => none

/-- The decoded entry lines of a description, in order (spec §4.1: lines
matching the entry pattern, with the `*total*` line excluded). -/
def nonTotalEntries (d : Desc) : List Entry :=
  d.rest.filterMap entryNT

/-- All decoded entry lines of a description (total included), used to state
claims about raw entry lines. -/
def entriesOf (d : Desc) : List Entry :=
  d.rest.filterMap (fun l =>
    match l with
    | Line.entry e => some e
    | _ => none)

/-- Presence in the sense of the spec sentence for the toggle resolution:
an entry whose `subject_key` equals the subject's key exists. -/
def spec_entry_present (key : String) (d : Desc) : Bool :=
  (entriesOf d).any (fun e => e.subject == key)

/-- Well-formedness of a freshly formatted user entry: the line matches the
entry pattern and its subject is a nonempty run of login characters, as
`format_user_taxon_counts` renders logins. -/
def userEntryWF (e : Entry) : Bool :=
  entryLineMatch e && !e.subject.toList.isEmpty && e.subject.toList.all isUserChar

/-- Well-formedness of a total line: the line matches the entry pattern and
its subject is exactly the `*total*` marker. -/
def totalEntryWF (e : Entry) : Bool :=
  entryLineMatch e && (e.subject.toList == totalMark)

/-- Well-formedness of a place entry: the line matches the entry pattern,
its link carries a capturable `&place_id=N&`, and its subject does not
start with the `*total*` marker. -/
def placeEntryWF (e : Entry) : Bool :=
  entryLineMatch e && (extractPlaceId e.link).isSome &&
    !(listStarts totalMark e.subject.toList)

/-- Per-line well-formedness of a user-dimension card: every entry line is
either a proper user entry or a total line. -/
def lineUserWF : Line → Bool
  | Line.entry e => userEntryWF e || totalEntryWF e
  | _ => true

/-- Per-line well-formedness of a place-dimension card: every entry line is
either a proper place entry or a total line whose link carries no
capturable place id (the totals the place formatter emits join several ids
with commas, which the `(\d+?)&` group cannot capture). -/
def placeLineWF : Line → Bool
  | Line.entry e => (totalEntryWF e && (extractPlaceId e.link).isNone) || placeEntryWF e
  | _ => true

/-- The total lines of a description: lines the total pattern matches. -/
def totalLines (d : Desc) : List Line :=
  d.rest.filter matchesTotal

/-- Fixture: a stand-in formatter output entry. -/
def stub1 : Entry := ⟨"1", "u", "x"⟩

/-- Fixture: a stand-in total formatter. -/
def stubTotal : String → Entry := fun _ => ⟨"9", "t", "*total*"⟩

/-- Fixture: entry line of the member with login `alicezz`. -/
def entryZZ : Entry := ⟨"3", "u", "alicezz"⟩

/-- Fixture: a user card holding only `alicezz`. -/
def descZZ : Desc := ⟨"head", [Line.userHeader, Line.entry entryZZ]⟩

/-- Fixture: the fetched message showing `descZZ`. -/
def msgZZ : FetchedMsg := ⟨descZZ, "f"⟩

/-- Fixture: a user card holding only `alice`. -/
def descAlice : Desc := ⟨"head", [Line.userHeader, Line.entry ⟨"3", "u", "alice"⟩]⟩

/-- Fixture: the fetched message showing `descAlice`. -/
def msgAlice : FetchedMsg := ⟨descAlice, ""⟩

/-- Fixture: the fetched message with an empty tally. -/
def msgEmpty : FetchedMsg := ⟨⟨"head", []⟩, "f"⟩

/-- Fixture: place entry `A` with place id 11. -/
def entryA : Entry := ⟨"3", "https://w?x=1&place_id=11&y=2", "A"⟩

/-- Fixture: place entry `B` with place id 22. -/
def entryB : Entry := ⟨"5", "https://w?x=1&place_id=22&y=2", "B"⟩

/-- Fixture: a place card holding the two consecutive entries `A` and `B`. -/
def descAB : Desc := ⟨"head", [Line.placeHeader, Line.entry entryA, Line.entry entryB]⟩

/-- Claim C1, counterexample: with only the entry `alicezz` on the card and
subject key `alice`, no entry for the exact subject key is present, yet the
toggle resolves to `remove`, because `counts_pat` tests an un-anchored
literal prefix of the subject, not equality. -/
theorem C1_toggle_exact_presence_fails :
    resolve_action "alice" descZZ TallyAction.toggle = TallyAction.remove ∧
      spec_entry_present "alice" descZZ = false := by
  decide

/-- Claim C2, evaluation of the failing input: a place card with header and
the two consecutive entries `A`, `B`; removing `A` yields a body that still
holds entry `B` but no places header, violating the header invariant.  The
`len(matches) == 1` last-entry test counted only one of the two entries
because the findall's `(\n|$)` group consumes the newline separating
consecutive entry lines. -/
theorem C2_place_header_lost_eval :
    update_place_totals stub1 stubTotal "A" TallyAction.remove descAB =
        ⟨"head", [Line.entry entryB]⟩ ∧
      hasPlacesHeader (update_place_totals stub1 stubTotal "A" TallyAction.remove descAB) = false ∧
      (nonTotalEntries (update_place_totals stub1 stubTotal "A" TallyAction.remove descAB)).length = 1 ∧
      placeMatches descAB = ["A"] := by
  decide

/-- Claim C4, counterexample: the message exists at fetch time, the guard
passes, and the message is gone when `msg.edit` runs; the source does not
wrap the edit in try/except, so the NotFound raised by the write propagates
(`editRaised`) instead of completing as a silent no-op. -/
theorem C4_write_failure_raises :
    edit_totals_locked stub1 stubTotal (some msgEmpty) false "alice" TallyAction.add =
        EditOutcome.editRaised ⟨⟨"head", [Line.userHeader, Line.entry stub1]⟩, ""⟩ ∧
      edit_totals_locked stub1 stubTotal (some msgEmpty) false "alice" TallyAction.add ≠
        EditOutcome.notFoundNoop := by
  decide

/-- Claim C5, counterexample: a reaction-add event with the `#` self-gesture
routes to the member mutator with the event's own action `add`, not with
`toggle`; and on a card where the actor's entry is already present the
`add` is a no-op, whereas `toggle` would remove the entry. -/
theorem C5_self_gesture_not_toggle :
    raw_reaction_route true Emoji.hash descAlice = Route.memberSelf TallyAction.add ∧
      raw_reaction_route true Emoji.hash descAlice ≠ Route.memberSelf TallyAction.toggle ∧
      edit_totals_locked stub1 stubTotal (some msgAlice) true "alice" TallyAction.add =
        EditOutcome.unchanged msgAlice ∧
      edit_totals_locked stub1 stubTotal (some msgAlice) true "alice" TallyAction.toggle =
        EditOutcome.wrote ⟨⟨"head", []⟩, ""⟩ := by
  decide

/-- Claim C6, evaluation: on timeout with the prompt delete succeeding, the
prompter returns no answer with the prompt deleted and no tally change; but
when the prompt delete raises HTTPException, the early return inside the
suppress block is skipped and the fall-through evaluates
`is_query_response(None)`, raising AttributeError on `response.content`
(`raisedAttr`), which propagates to the caller instead of the no-answer
return. -/
theorem C6_timeout_delete_failure_eval :
    query_locked false ["!"] none false false = ⟨true, true, false, false, none⟩ ∧
      maybe_update_member_by_name true false ["!"] none false false (fun _ => none) =
        ByNameOutcome.noResponse ∧
      query_locked false ["!"] none true false = ⟨true, false, false, true, none⟩ ∧
      maybe_update_member_by_name true false ["!"] none true false (fun _ => none) =
        ByNameOutcome.errored := by
  decide

/-- Claim C8: a prompt invocation entered while the per-user lock is held
returns before sending the prompt: no prompt message, no deletions, no
response regardless of any reply, and the by-name flow performs no
mutation. -/
theorem C8_lock_held_aborts (ps : List String) (reply : Option String)
    (pdf dmf : Bool) (cv : String → Option String) :
    query_locked true ps reply pdf dmf = ⟨false, false, false, false, none⟩ ∧
      maybe_update_member_by_name true true ps reply pdf dmf cv =
        ByNameOutcome.noResponse := by
  exact ⟨rfl, rfl⟩

/-- Claim C10, counterexample: subject key `alice`, action `remove`, with no
entry for the exact key present (only `alicezz`); the claim says the
mutator performs no write, but the prefix presence test matches `alicezz`,
so the mutator removes that line (and the header) and writes the new body. -/
theorem C10_remove_absent_writes :
    spec_entry_present "alice" msgZZ.description = false ∧
      edit_totals_locked stub1 stubTotal (some msgZZ) true "alice" TallyAction.remove =
        EditOutcome.wrote ⟨⟨"head", []⟩, ""⟩ := by
  decide

/-- Presence via `counts_pat` unfolded to entry lines. -/
theorem keyPresent_iff (key : String) (d : Desc) :
    keyPresent key d = true ↔
      ∃ e ∈ entriesOf d, entryLineMatch e = true ∧
        listStarts key.toList e.subject.toList = true := by
  unfold keyPresent entriesOf
  rw [List.any_eq_true]
  constructor
  · rintro ⟨l, hl, hp⟩
    cases l with
    | entry e =>
      refine ⟨e, List.mem_filterMap.mpr ⟨Line.entry e, hl, rfl⟩, ?_⟩
      simpa [matchesKey] using hp
    | userHeader => simp [matchesKey] at hp
    | placeHeader => simp [matchesKey] at hp
    | text s => simp [matchesKey] at hp
  · rintro ⟨e, he, h1, h2⟩
    obtain ⟨l, hl, hfe⟩ := List.mem_filterMap.mp he
    refine ⟨l, hl, ?_⟩
    cases l with
    | entry e' =>
      simp only [Option.some.injEq] at hfe
      subst hfe
      show (entryLineMatch e' && listStarts key.toList e'.subject.toList) = true
      rw [h1, h2]
      rfl
    | userHeader => simp at hfe
    | placeHeader => simp at hfe
    | text s => simp at hfe

/-- Claim C1, amended: the toggle resolves to `remove` exactly when some
entry line's subject key has the subject's key as a prefix, and to `add`
exactly when no such line exists. -/
theorem C1_toggle_startswith_resolution (key : String) (d : Desc) :
    (resolve_action key d TallyAction.toggle = TallyAction.remove ↔
      ∃ e ∈ entriesOf d, entryLineMatch e = true ∧
        listStarts key.toList e.subject.toList = true) ∧
    (resolve_action key d TallyAction.toggle = TallyAction.add ↔
      ¬∃ e ∈ entriesOf d, entryLineMatch e = true ∧
        listStarts key.toList e.subject.toList = true) := by
  have hk := keyPresent_iff key d
  by_cases h : keyPresent key d = true
  · have hres : resolve_action key d TallyAction.toggle = TallyAction.remove := by
      unfold resolve_action
      rw [if_pos rfl, if_pos h]
    rw [hres]
    exact ⟨iff_of_true rfl (hk.mp h),
      iff_of_false (by intro hc; cases hc) (not_not_intro (hk.mp h))⟩
  · have hres : resolve_action key d TallyAction.toggle = TallyAction.add := by
      unfold resolve_action
      rw [if_pos rfl, if_neg h]
    have hnp : ¬∃ e ∈ entriesOf d, entryLineMatch e = true ∧
        listStarts key.toList e.subject.toList = true := fun hp => h (hk.mpr hp)
    rw [hres]
    exact ⟨iff_of_false (by intro hc; cases hc) hnp, iff_of_true rfl hnp⟩

/-- Claim C4, amended: a fetch-time NotFound completes as a silent no-op in
both mutators, but when the guard passes and the message is gone at write
time, the edit's NotFound propagates out of the mutator (the source guards
only the fetch with try/except). -/
theorem C4_fetch_noop_write_raises (uNew pNew : Entry) (uTot pTot : String → Entry)
    (alive : Bool) (login disp : String) (a b : TallyAction) (m mp : FetchedMsg)
    (hm : mutation_needed login m.description a = true)
    (hp : mutation_needed disp mp.description b = true) :
    edit_totals_locked uNew uTot none alive login a = EditOutcome.notFoundNoop ∧
      edit_place_totals_locked pNew pTot none alive disp b = EditOutcome.notFoundNoop ∧
      (∃ w, edit_totals_locked uNew uTot (some m) false login a = EditOutcome.editRaised w) ∧
      (∃ w, edit_place_totals_locked pNew pTot (some mp) false disp b = EditOutcome.editRaised w) := by
  refine ⟨rfl, rfl, ?_, ?_⟩
  · simp only [edit_totals_locked]
    rw [if_pos hm]
    exact ⟨_, rfl⟩
  · simp only [edit_place_totals_locked]
    rw [if_pos hp]
    exact ⟨_, rfl⟩

/-- Claim C4 witness: the amended statement at an empty card with an `add`
mutation, whose guard holds. -/
theorem C4_fetch_noop_write_raises_witness :
    edit_totals_locked stub1 stubTotal none true "alice" TallyAction.add = EditOutcome.notFoundNoop ∧
      edit_place_totals_locked stub1 stubTotal none true "A" TallyAction.add = EditOutcome.notFoundNoop ∧
      (∃ w, edit_totals_locked stub1 stubTotal (some msgEmpty) false "alice" TallyAction.add =
        EditOutcome.editRaised w) ∧
      (∃ w, edit_place_totals_locked stub1 stubTotal (some msgEmpty) false "A" TallyAction.add =
        EditOutcome.editRaised w) :=
  C4_fetch_noop_write_raises stub1 stub1 stubTotal stubTotal true "alice" "A"
    TallyAction.add TallyAction.add msgEmpty msgEmpty (by decide) (by decide)

/-- Claim C5, amended: self-gestures route to the mutators with the raw
event's own action (`add` on reaction-add, `remove` on reaction-remove), so
an event whose action agrees with current presence is a no-op instead of a
presence-decided toggle; only the by-name flow invokes the mutator with
`toggle`. -/
theorem C5_event_action_routing (a : TallyAction) (hU hP : Bool) :
    (route Emoji.hash hU false a = Route.memberSelf a) ∧
    (route Emoji.pencil hU false a = Route.memberByName) ∧
    (route Emoji.house false hP a = Route.placeSelf a) ∧
    (route Emoji.pin false hP a = Route.placeByName) ∧
    (∀ (uNew : Entry) (uTot : String → Entry) (m : FetchedMsg) (al : Bool) (key : String),
      keyPresent key m.description = true →
      edit_totals_locked uNew uTot (some m) al key TallyAction.add = EditOutcome.unchanged m) ∧
    (∀ (uNew : Entry) (uTot : String → Entry) (m : FetchedMsg) (al : Bool) (key : String),
      keyPresent key m.description = false →
      edit_totals_locked uNew uTot (some m) al key TallyAction.remove = EditOutcome.unchanged m) ∧
    (∀ (ps : List String) (c who : String) (cv : String → Option String),
      is_query_response ps c = true → cv c = some who →
      maybe_update_member_by_name true false ps (some c) false false cv =
        ByNameOutcome.mutated who TallyAction.toggle) := by
  refine ⟨rfl, rfl, ?_, ?_, ?_, ?_, ?_⟩
  · cases hP <;> rfl
  · cases hP <;> rfl
  · intro uNew uTot m al key h
    simp only [edit_totals_locked]
    rw [if_neg ?hc]
    case hc =>
      simp [mutation_needed, resolve_action, h]
  · intro uNew uTot m al key h
    simp only [edit_totals_locked]
    rw [if_neg ?hc]
    case hc =>
      simp [mutation_needed, resolve_action, h]
  · intro ps c who cv h1 h2
    simp [maybe_update_member_by_name, query_locked, h1, h2]

/-- Claim C5 witness: the amended statement instantiated at the `add` event
action, with the no-op direction discharged on a card where `alice` is
present and with a converting by-name reply. -/
theorem C5_event_action_routing_witness :
    route Emoji.hash true false TallyAction.add = Route.memberSelf TallyAction.add ∧
      edit_totals_locked stub1 stubTotal (some msgAlice) true "alice" TallyAction.add =
        EditOutcome.unchanged msgAlice ∧
      maybe_update_member_by_name true false ["!"] (some "bob") false false
        (fun s => some s) = ByNameOutcome.mutated "bob" TallyAction.toggle := by
  have h := C5_event_action_routing TallyAction.add true false
  exact ⟨h.1, h.2.2.2.2.1 stub1 stubTotal msgAlice true "alice" (by decide),
    h.2.2.2.2.2.2 ["!"] "bob" "bob" (fun s => some s) (by decide) rfl⟩

/-- Claim C7: when the reply content starts with one of the recognized
command prefixes, the prompter deletes the prompt (whenever the platform
delete succeeds), leaves the reply in place but discards it, returns the
no-answer outcome, and the by-name flow performs no mutation. -/
theorem C7_foreign_reply_no_answer (ps : List String) (c : String)
    (pdf dmf : Bool) (cv : String → Option String) (p : String)
    (hp : p ∈ ps) (hpre : listStarts p.toList c.toList = true) :
    query_locked false ps (some c) pdf dmf = ⟨true, !pdf, false, false, none⟩ ∧
      maybe_update_member_by_name true false ps (some c) pdf dmf cv =
        ByNameOutcome.noResponse := by
  have hf : is_query_response ps c = false := by
    cases ps with
    | nil => cases hp
    | cons q qs =>
      show (!(q :: qs).any (fun p => listStarts p.toList c.toList)) = false
      rw [List.any_eq_true.mpr ⟨p, hp, hpre⟩]
      rfl
  constructor
  · simp [query_locked, hf]
  · simp [maybe_update_member_by_name, query_locked, hf]

/-- Claim C7 witness: a reply that is a command for a configured other bot. -/
theorem C7_foreign_reply_no_answer_witness :
    query_locked false ["!"] (some "!cancel") false false = ⟨true, true, false, false, none⟩ ∧
      maybe_update_member_by_name true false ["!"] (some "!cancel") false false
        (fun _ => some "bob") = ByNameOutcome.noResponse := by
  have h := C7_foreign_reply_no_answer ["!"] "!cancel" false false
    (fun _ => some "bob") "!" (by decide) (by decide)
  simpa using h

/-- Claim C10, amended: for explicit (non-toggle) actions the mutator skips
the write — leaving description, footer and all other parts of the message
exactly as fetched — precisely when the action disagrees with the prefix
presence test: `add` with a prefix-matched entry present, or `remove` with
none present.  A `remove` whose exact key is absent but prefixes another
entry's key does write. -/
theorem C10_no_write_iff_guard_fails (uNew pNew : Entry) (uTot pTot : String → Entry)
    (alive : Bool) (login disp : String) (a : TallyAction) (m mp : FetchedMsg)
    (ha : a ≠ TallyAction.toggle) :
    (edit_totals_locked uNew uTot (some m) alive login a = EditOutcome.unchanged m ↔
      (keyPresent login m.description = true ↔ a = TallyAction.add)) ∧
    (edit_place_totals_locked pNew pTot (some mp) alive disp a = EditOutcome.unchanged mp ↔
      (keyPresent disp mp.description = true ↔ a = TallyAction.add)) := by
  cases a with
  | toggle => exact absurd rfl ha
  | add =>
    constructor
    · by_cases hk : keyPresent login m.description = true
      · simp [edit_totals_locked, mutation_needed, resolve_action, hk]
      · have hk' : keyPresent login m.description = false := by simpa using hk
        cases alive <;>
          simp [edit_totals_locked, mutation_needed, resolve_action, hk']
    · by_cases hk : keyPresent disp mp.description = true
      · simp [edit_place_totals_locked, mutation_needed, resolve_action, hk]
      · have hk' : keyPresent disp mp.description = false := by simpa using hk
        cases alive <;>
          simp [edit_place_totals_locked, mutation_needed, resolve_action, hk']
  | remove =>
    constructor
    · by_cases hk : keyPresent login m.description = true
      · cases alive <;>
          simp [edit_totals_locked, mutation_needed, resolve_action, hk]
      · have hk' : keyPresent login m.description = false := by simpa using hk
        simp [edit_totals_locked, mutation_needed, resolve_action, hk']
    · by_cases hk : keyPresent disp mp.description = true
      · cases alive <;>
          simp [edit_place_totals_locked, mutation_needed, resolve_action, hk]
      · have hk' : keyPresent disp mp.description = false := by simpa using hk
        simp [edit_place_totals_locked, mutation_needed, resolve_action, hk']

/-- Claim C10 witness: `add` with `alice` present in the user card and `A`
absent from the empty description — both sides of the no-write criterion. -/
theorem C10_no_write_iff_guard_fails_witness :
    ((edit_totals_locked stub1 stubTotal (some msgAlice) true "alice" TallyAction.add =
        EditOutcome.unchanged msgAlice ↔
      (keyPresent "alice" msgAlice.description = true ↔ TallyAction.add = TallyAction.add)) ∧
     (edit_place_totals_locked stub1 stubTotal (some msgAlice) true "A" TallyAction.add =
        EditOutcome.unchanged msgAlice ↔
      (keyPresent "A" msgAlice.description = true ↔ TallyAction.add = TallyAction.add))) :=
  C10_no_write_iff_guard_fails stub1 stub1 stubTotal stubTotal true "alice" "A"
    TallyAction.add msgAlice msgAlice (by decide)

/-- Rebuilding a string from its character list. -/
theorem string_mk_toList (s : String) : String.mk s.toList = s := by
  cases s
  rfl

/-- A list all of whose elements satisfy `p` is its own `takeWhile p`. -/
theorem takeWhile_eq_of_all {p : Char → Bool} {l : List Char}
    (h : l.all p = true) : l.takeWhile p = l := by
  induction l with
  | nil => rfl
  | cons c t ih =>
    rw [List.all_cons, Bool.and_eq_true] at h
    rw [List.takeWhile_cons, if_pos h.1, ih h.2]

/-- Every list starts with itself. -/
theorem listStarts_self (l : List Char) : listStarts l l = true := by
  induction l with
  | nil => rfl
  | cons c t ih => rw [listStarts, if_pos rfl, ih]

/-- Destructing a successful nonempty prefix test. -/
theorem listStarts_cons_true {c : Char} {cs l : List Char}
    (h : listStarts (c :: cs) l = true) :
    ∃ ds, l = c :: ds ∧ listStarts cs ds = true := by
  cases l with
  | nil => exact absurd h (by rw [listStarts]; exact Bool.false_ne_true)
  | cons d ds =>
    by_cases hc : c = d
    · subst hc
      rw [listStarts, if_pos rfl] at h
      exact ⟨ds, rfl, h⟩
    · rw [listStarts, if_neg hc] at h
      exact absurd h Bool.false_ne_true

/-- Equation lemma: `lineUserKey` on an entry line. -/
theorem lineUserKey_entry (e : Entry) :
    lineUserKey (Line.entry e) =
      if entryLineMatch e then
        (match e.subject.toList.takeWhile isUserChar with
         | [] => none
         | k => some (String.mk k))
      else none := rfl

/-- Equation lemma: `matchesTotal` on an entry line. -/
theorem matchesTotal_entry (e : Entry) :
    matchesTotal (Line.entry e) = (entryLineMatch e && listStarts totalMark e.subject.toList) := rfl

/-- A well-formed user entry's subject does not start with the `*total*`
marker (its first character is a login character, never `*`). -/
theorem not_totalStart_of_userWF {e : Entry} (h : userEntryWF e = true) :
    listStarts totalMark e.subject.toList = false := by
  unfold userEntryWF at h
  rw [Bool.and_eq_true, Bool.and_eq_true] at h
  obtain ⟨⟨-, hne⟩, hall⟩ := h
  cases hs : listStarts totalMark e.subject.toList with
  | false => rfl
  | true =>
    unfold totalMark at hs
    obtain ⟨ds, hds, -⟩ := listStarts_cons_true hs
    have hstar : isUserChar '*' = true :=
      List.all_eq_true.mp hall '*' (by rw [hds]; exact List.mem_cons_self _ _)
    exact absurd hstar (by decide)

/-- A well-formed user entry is not matched by the total pattern. -/
theorem matchesTotal_false_of_userWF {e : Entry} (h : userEntryWF e = true) :
    matchesTotal (Line.entry e) = false := by
  rw [matchesTotal_entry, not_totalStart_of_userWF h, Bool.and_false]

/-- A well-formed total line is matched by the total pattern. -/
theorem matchesTotal_of_totalWF {e : Entry} (h : totalEntryWF e = true) :
    matchesTotal (Line.entry e) = true := by
  unfold totalEntryWF at h
  rw [Bool.and_eq_true] at h
  obtain ⟨h1, h2⟩ := h
  have h2' : e.subject.toList = totalMark := by simpa using h2
  rw [matchesTotal_entry, h1, h2', listStarts_self]
  rfl

/-- A well-formed place entry is not matched by the total pattern. -/
theorem matchesTotal_false_of_placeWF {e : Entry} (h : placeEntryWF e = true) :
    matchesTotal (Line.entry e) = false := by
  unfold placeEntryWF at h
  rw [Bool.and_eq_true] at h
  obtain ⟨-, h2⟩ := h
  rw [Bool.not_eq_true'] at h2
  rw [matchesTotal_entry, h2, Bool.and_false]

/-- The user capture of a well-formed user entry is its full subject. -/
theorem lineUserKey_of_userWF {e : Entry} (h : userEntryWF e = true) :
    lineUserKey (Line.entry e) = some e.subject := by
  unfold userEntryWF at h
  rw [Bool.and_eq_true, Bool.and_eq_true] at h
  obtain ⟨⟨hm, hne⟩, hall⟩ := h
  rw [lineUserKey_entry, if_pos hm, takeWhile_eq_of_all hall]
  cases hs : e.subject.toList with
  | nil =>
    rw [hs] at hne
    exact absurd hne (by decide)
  | cons c cs =>
    have hmk : String.mk (c :: cs) = e.subject := by rw [← hs, string_mk_toList]
    exact congrArg some hmk

/-- A line matched by the total pattern yields no user capture (its subject
starts with `*`, which is not a login character). -/
theorem lineUserKey_none_of_matchesTotal {l : Line} (h : matchesTotal l = true) :
    lineUserKey l = none := by
  cases l with
  | entry e =>
    rw [matchesTotal_entry, Bool.and_eq_true] at h
    obtain ⟨h1, h2⟩ := h
    unfold totalMark at h2
    obtain ⟨ds, hds, -⟩ := listStarts_cons_true h2
    rw [lineUserKey_entry, if_pos h1, hds, List.takeWhile_cons, if_neg (by decide)]
  | userHeader => rfl
  | placeHeader => rfl
  | text s => rfl

/-- Equation lemma: `entryNT` on an entry line. -/
theorem entryNT_entry (e : Entry) :
    entryNT (Line.entry e) =
      if entryLineMatch e then
        (if listStarts totalMark e.subject.toList then none else some e)
      else none := rfl

/-- A well-formed user entry decodes to itself. -/
theorem entryNT_of_userWF {e : Entry} (h : userEntryWF e = true) :
    entryNT (Line.entry e) = some e := by
  have hm : entryLineMatch e = true := by
    unfold userEntryWF at h
    rw [Bool.and_eq_true, Bool.and_eq_true] at h
    exact h.1.1
  rw [entryNT_entry, if_pos hm, if_neg ?hns]
  case hns => rw [not_totalStart_of_userWF h]; exact Bool.false_ne_true

/-- A well-formed place entry decodes to itself. -/
theorem entryNT_of_placeWF {e : Entry} (h : placeEntryWF e = true) :
    entryNT (Line.entry e) = some e := by
  unfold placeEntryWF at h
  rw [Bool.and_eq_true, Bool.and_eq_true] at h
  obtain ⟨⟨hm, -⟩, hns⟩ := h
  rw [Bool.not_eq_true'] at hns
  rw [entryNT_entry, if_pos hm, if_neg (by rw [hns]; exact Bool.false_ne_true)]

/-- A line matched by the total pattern decodes to no entry. -/
theorem entryNT_none_of_matchesTotal {l : Line} (h : matchesTotal l = true) :
    entryNT l = none := by
  cases l with
  | entry e =>
    rw [matchesTotal_entry, Bool.and_eq_true] at h
    rw [entryNT_entry, if_pos h.1, if_pos h.2]
  | userHeader => rfl
  | placeHeader => rfl
  | text s => rfl

/-- Equation lemma: `linePlaceId` on an entry line. -/
theorem linePlaceId_entry (e : Entry) :
    linePlaceId (Line.entry e) =
      (if entryLineMatch e then extractPlaceId e.link else none) := rfl

/-- A well-formed total line of a place card yields no place id capture. -/
theorem linePlaceId_none_of_idNone {e : Entry} (h : extractPlaceId e.link = none) :
    linePlaceId (Line.entry e) = none := by
  rw [linePlaceId_entry]
  split
  · exact h
  · rfl

/-- Filtering preserves an empty total-line filter. -/
theorem filter_total_nil {q : Line → Bool} {ls : List Line}
    (h : ls.filter matchesTotal = []) :
    (ls.filter q).filter matchesTotal = [] := by
  rw [List.filter_eq_nil_iff] at h ⊢
  intro a ha
  exact h a (List.mem_filter.mp ha).1

/-- The total lines of `removeTotals` are gone. -/
theorem totalLines_removeTotals (d : Desc) : totalLines (removeTotals d) = [] := by
  show (d.rest.filter fun l => !matchesTotal l).filter matchesTotal = []
  rw [List.filter_eq_nil_iff]
  intro a ha
  have := (List.mem_filter.mp ha).2
  rw [Bool.not_eq_true'] at this
  rw [this]
  exact Bool.false_ne_true

/-- Filter of a one-element append. -/
theorem filter_append_one (p : Line → Bool) (ls : List Line) (x : Line) :
    (ls ++ [x]).filter p = ls.filter p ++ (if p x then [x] else []) := by
  rw [List.filter_append]
  cases h : p x <;> simp [List.filter, h]

/-- filterMap of a one-element append. -/
theorem filterMap_append_one {β : Type} (f : Line → Option β) (ls : List Line) (x : Line) :
    (ls ++ [x]).filterMap f = ls.filterMap f ++ (f x).toList := by
  rw [List.filterMap_append]
  cases h : f x <;> simp [List.filterMap, h]

/-- Under per-line user well-formedness, the user findall captures exactly
the subjects of the decoded non-total entries, in order. -/
theorem user_bridge {ls : List Line} (h : ∀ l ∈ ls, lineUserWF l = true) :
    ls.filterMap lineUserKey = (ls.filterMap entryNT).map Entry.subject := by
  induction ls with
  | nil => rfl
  | cons l t ih =>
    have hl := h l (List.mem_cons_self l t)
    have ht : ∀ x ∈ t, lineUserWF x = true := fun x hx => h x (List.mem_cons_of_mem l hx)
    cases l with
    | entry e =>
      have hl' : (userEntryWF e || totalEntryWF e) = true := hl
      rw [Bool.or_eq_true] at hl'
      cases hl' with
      | inl hu =>
        rw [List.filterMap_cons, List.filterMap_cons, lineUserKey_of_userWF hu,
          entryNT_of_userWF hu]
        simp [ih ht]
      | inr htot =>
        have hm := matchesTotal_of_totalWF htot
        rw [List.filterMap_cons, List.filterMap_cons,
          lineUserKey_none_of_matchesTotal hm, entryNT_none_of_matchesTotal hm]
        exact ih ht
    | userHeader =>
      rw [List.filterMap_cons, List.filterMap_cons]
      exact ih ht
    | placeHeader =>
      rw [List.filterMap_cons, List.filterMap_cons]
      exact ih ht
    | text s =>
      rw [List.filterMap_cons, List.filterMap_cons]
      exact ih ht

/-- Under per-line place well-formedness, the place-id findall captures as
many ids as there are decoded non-total entries. -/
theorem place_bridge {ls : List Line} (h : ∀ l ∈ ls, placeLineWF l = true) :
    (ls.filterMap linePlaceId).length = (ls.filterMap entryNT).length := by
  induction ls with
  | nil => rfl
  | cons l t ih =>
    have hl := h l (List.mem_cons_self l t)
    have ht : ∀ x ∈ t, placeLineWF x = true := fun x hx => h x (List.mem_cons_of_mem l hx)
    cases l with
    | entry e =>
      have hl' : ((totalEntryWF e && (extractPlaceId e.link).isNone) || placeEntryWF e) = true := hl
      rw [Bool.or_eq_true, Bool.and_eq_true] at hl'
      cases hl' with
      | inl htot =>
        have hid : extractPlaceId e.link = none := Option.isNone_iff_eq_none.mp htot.2
        rw [List.filterMap_cons, List.filterMap_cons, linePlaceId_none_of_idNone hid,
          entryNT_none_of_matchesTotal (matchesTotal_of_totalWF htot.1)]
        exact ih ht
      | inr hpw =>
        have hparts : (entryLineMatch e = true ∧ (extractPlaceId e.link).isSome = true) ∧
            (!listStarts totalMark e.subject.toList) = true := by
          have := hpw
          unfold placeEntryWF at this
          rw [Bool.and_eq_true, Bool.and_eq_true] at this
          exact this
        obtain ⟨v, hv⟩ := Option.isSome_iff_exists.mp hparts.1.2
        have hp : linePlaceId (Line.entry e) = some v := by
          rw [linePlaceId_entry, if_pos hparts.1.1, hv]
        rw [List.filterMap_cons, List.filterMap_cons, hp, entryNT_of_placeWF hpw]
        simp [ih ht]
    | userHeader =>
      rw [List.filterMap_cons, List.filterMap_cons]
      exact ih ht
    | placeHeader =>
      rw [List.filterMap_cons, List.filterMap_cons]
      exact ih ht
    | text s =>
      rw [List.filterMap_cons, List.filterMap_cons]
      exact ih ht

/-- Total lines survive no `removeKey`. -/
theorem totalLines_removeKey {d : Desc} (k : String) (h : totalLines d = []) :
    totalLines (removeKey k d) = [] :=
  filter_total_nil h

/-- Total lines survive no user-header removal. -/
theorem totalLines_removeUserHeader {d : Desc} (h : totalLines d = []) :
    totalLines (removeUserHeader d) = [] :=
  filter_total_nil h

/-- Total lines survive no places-header removal. -/
theorem totalLines_removePlaceHeader {d : Desc} (h : totalLines d = []) :
    totalLines (removePlaceHeader d) = [] :=
  filter_total_nil h

/-- Total lines of an appended description. -/
theorem totalLines_appendLine (x : Line) (d : Desc) :
    totalLines (appendLine x d) = totalLines d ++ (if matchesTotal x then [x] else []) :=
  filter_append_one matchesTotal d.rest x

/-- User captures of an appended description. -/
theorem userMatches_appendLine (x : Line) (d : Desc) :
    userMatches (appendLine x d) = userMatches d ++ (lineUserKey x).toList :=
  filterMap_append_one lineUserKey d.rest x

/-- Place-id captures of an appended description. -/
theorem placeIdMatches_appendLine (x : Line) (d : Desc) :
    placeIdMatches (appendLine x d) = placeIdMatches d ++ (linePlaceId x).toList :=
  filterMap_append_one linePlaceId d.rest x

/-- The mutation step never introduces a total line (user dimension). -/
theorem totalLines_mutate_user (uNew : Entry) (login : String) (a : TallyAction)
    (d1 : Desc) (hn : matchesTotal (Line.entry uNew) = false)
    (h : totalLines d1 = []) : totalLines (mutate_user uNew login a d1) = [] := by
  unfold mutate_user
  split
  · apply totalLines_removeKey
    split
    · exact totalLines_removeUserHeader h
    · exact h
  · have hx : ¬(matchesTotal (Line.entry uNew) = true) := by
      rw [hn]; exact Bool.false_ne_true
    rw [totalLines_appendLine, if_neg hx, List.append_nil]
    split
    · have hy : ¬(matchesTotal Line.userHeader = true) := Bool.false_ne_true
      rw [totalLines_appendLine, if_neg hy, List.append_nil]
      exact h
    · exact h

/-- The mutation step never introduces a total line (place dimension). -/
theorem totalLines_mutate_place (pNew : Entry) (disp : String) (a : TallyAction)
    (d1 : Desc) (hn : matchesTotal (Line.entry pNew) = false)
    (h : totalLines d1 = []) : totalLines (mutate_place pNew disp a d1) = [] := by
  unfold mutate_place
  split
  · apply totalLines_removeKey
    split
    · exact totalLines_removePlaceHeader h
    · exact h
  · have hx : ¬(matchesTotal (Line.entry pNew) = true) := by
      rw [hn]; exact Bool.false_ne_true
    rw [totalLines_appendLine, if_neg hx, List.append_nil]
    split
    · have hy : ¬(matchesTotal Line.placeHeader = true) := Bool.false_ne_true
      rw [totalLines_appendLine, if_neg hy, List.append_nil]
      exact h
    · exact h

/-- Characterization of the user retotal step on a description without total
lines: user captures are unchanged, and the total lines of the result are
exactly one fresh formatter line over the comma-joined captures when more
than one was counted, none otherwise. -/
theorem retotal_user_spec (uTot : String → Entry) (d2 : Desc)
    (hT : ∀ s, matchesTotal (Line.entry (uTot s)) = true)
    (h : totalLines d2 = []) :
    userMatches (retotal_user uTot d2) = userMatches d2 ∧
      totalLines (retotal_user uTot d2) =
        (if 1 < (userMatches (retotal_user uTot d2)).length then
          [Line.entry (uTot (String.intercalate "," (userMatches (retotal_user uTot d2))))]
         else []) := by
  unfold retotal_user
  by_cases hc : 1 < (userMatches d2).length
  · rw [if_pos hc]
    have hum : userMatches
        (appendLine (Line.entry (uTot (String.intercalate "," (userMatches d2)))) d2) =
        userMatches d2 := by
      rw [userMatches_appendLine, lineUserKey_none_of_matchesTotal (hT _)]
      simp
    refine ⟨hum, ?_⟩
    rw [totalLines_appendLine, h, if_pos (hT _), hum, if_pos hc]
    simp
  · rw [if_neg hc]
    exact ⟨rfl, by rw [h, if_neg hc]⟩

/-- Characterization of the place retotal step, as `retotal_user_spec`, with
place-id captures (the appended total's link carries no capturable id). -/
theorem retotal_place_spec (pTot : String → Entry) (d2 : Desc)
    (hT : ∀ s, matchesTotal (Line.entry (pTot s)) = true)
    (hid : ∀ s, extractPlaceId (pTot s).link = none)
    (h : totalLines d2 = []) :
    placeIdMatches (retotal_place pTot d2) = placeIdMatches d2 ∧
      totalLines (retotal_place pTot d2) =
        (if 1 < (placeIdMatches (retotal_place pTot d2)).length then
          [Line.entry (pTot (String.intercalate "," (placeIdMatches (retotal_place pTot d2))))]
         else []) := by
  unfold retotal_place
  by_cases hc : 1 < (placeIdMatches d2).length
  · rw [if_pos hc]
    have hpm : placeIdMatches
        (appendLine (Line.entry (pTot (String.intercalate "," (placeIdMatches d2)))) d2) =
        placeIdMatches d2 := by
      rw [placeIdMatches_appendLine, linePlaceId_none_of_idNone (hid _)]
      simp
    refine ⟨hpm, ?_⟩
    rw [totalLines_appendLine, h, if_pos (hT _), hpm, if_pos hc]
    simp
  · rw [if_neg hc]
    exact ⟨rfl, by rw [h, if_neg hc]⟩

/-- Membership chase: `removeTotals` filters. -/
theorem mem_removeTotals {l : Line} {d : Desc} (h : l ∈ (removeTotals d).rest) :
    l ∈ d.rest :=
  (List.mem_filter.mp h).1

/-- Membership chase: `removeKey` filters. -/
theorem mem_removeKey {l : Line} {k : String} {d : Desc}
    (h : l ∈ (removeKey k d).rest) : l ∈ d.rest :=
  (List.mem_filter.mp h).1

/-- Membership chase: `removeUserHeader` filters. -/
theorem mem_removeUserHeader {l : Line} {d : Desc}
    (h : l ∈ (removeUserHeader d).rest) : l ∈ d.rest :=
  (List.mem_filter.mp h).1

/-- Membership chase: `removePlaceHeader` filters. -/
theorem mem_removePlaceHeader {l : Line} {d : Desc}
    (h : l ∈ (removePlaceHeader d).rest) : l ∈ d.rest :=
  (List.mem_filter.mp h).1

/-- Membership chase: `appendLine` appends one line. -/
theorem mem_appendLine {l x : Line} {d : Desc} (h : l ∈ (appendLine x d).rest) :
    l ∈ d.rest ∨ l = x := by
  rcases List.mem_append.mp h with h1 | h1
  · exact Or.inl h1
  · exact Or.inr (List.mem_singleton.mp h1)

/-- Membership chase through the user mutation step. -/
theorem mem_mutate_user {uNew : Entry} {login : String} {a : TallyAction}
    {d1 : Desc} {l : Line} (hl : l ∈ (mutate_user uNew login a d1).rest) :
    l ∈ d1.rest ∨ l = Line.userHeader ∨ l = Line.entry uNew := by
  unfold mutate_user at hl
  split at hl
  · have h1 := mem_removeKey hl
    split at h1
    · exact Or.inl (mem_removeUserHeader h1)
    · exact Or.inl h1
  · rcases mem_appendLine hl with h1 | h1
    · split at h1
      · rcases mem_appendLine h1 with h2 | h2
        · exact Or.inl h2
        · exact Or.inr (Or.inl h2)
      · exact Or.inl h1
    · exact Or.inr (Or.inr h1)

/-- Membership chase through the place mutation step. -/
theorem mem_mutate_place {pNew : Entry} {disp : String} {a : TallyAction}
    {d1 : Desc} {l : Line} (hl : l ∈ (mutate_place pNew disp a d1).rest) :
    l ∈ d1.rest ∨ l = Line.placeHeader ∨ l = Line.entry pNew := by
  unfold mutate_place at hl
  split at hl
  · have h1 := mem_removeKey hl
    split at h1
    · exact Or.inl (mem_removePlaceHeader h1)
    · exact Or.inl h1
  · rcases mem_appendLine hl with h1 | h1
    · split at h1
      · rcases mem_appendLine h1 with h2 | h2
        · exact Or.inl h2
        · exact Or.inr (Or.inl h2)
      · exact Or.inl h1
    · exact Or.inr (Or.inr h1)

/-- Membership chase through the user retotal step. -/
theorem mem_retotal_user {uTot : String → Entry} {d2 : Desc} {l : Line}
    (hl : l ∈ (retotal_user uTot d2).rest) :
    l ∈ d2.rest ∨ ∃ s, l = Line.entry (uTot s) := by
  unfold retotal_user at hl
  split at hl
  · rcases mem_appendLine hl with h1 | h1
    · exact Or.inl h1
    · exact Or.inr ⟨_, h1⟩
  · exact Or.inl hl

/-- Membership chase through the place retotal step. -/
theorem mem_retotal_place {pTot : String → Entry} {d2 : Desc} {l : Line}
    (hl : l ∈ (retotal_place pTot d2).rest) :
    l ∈ d2.rest ∨ ∃ s, l = Line.entry (pTot s) := by
  unfold retotal_place at hl
  split at hl
  · rcases mem_appendLine hl with h1 | h1
    · exact Or.inl h1
    · exact Or.inr ⟨_, h1⟩
  · exact Or.inl hl

/-- User well-formedness is preserved by the whole user mutation. -/
theorem userWF_update_totals {uNew : Entry} {uTot : String → Entry}
    {login : String} {a : TallyAction} {du : Desc}
    (hdu : ∀ l ∈ du.rest, lineUserWF l = true)
    (huN : userEntryWF uNew = true) (huT : ∀ s, totalEntryWF (uTot s) = true) :
    ∀ l ∈ (update_totals uNew uTot login a du).rest, lineUserWF l = true := by
  intro l hl
  rcases mem_retotal_user hl with h1 | ⟨s, rfl⟩
  · rcases mem_mutate_user h1 with h2 | rfl | rfl
    · exact hdu l (mem_removeTotals h2)
    · rfl
    · show (userEntryWF uNew || totalEntryWF uNew) = true
      rw [huN]
      rfl
  · show (userEntryWF (uTot s) || totalEntryWF (uTot s)) = true
    rw [huT s, Bool.or_true]

/-- Place well-formedness is preserved by the whole place mutation. -/
theorem placeWF_update_place_totals {pNew : Entry} {pTot : String → Entry}
    {disp : String} {a : TallyAction} {dp : Desc}
    (hdp : ∀ l ∈ dp.rest, placeLineWF l = true)
    (hpN : placeEntryWF pNew = true) (hpT : ∀ s, totalEntryWF (pTot s) = true)
    (hpTid : ∀ s, extractPlaceId (pTot s).link = none) :
    ∀ l ∈ (update_place_totals pNew pTot disp a dp).rest, placeLineWF l = true := by
  intro l hl
  rcases mem_retotal_place hl with h1 | ⟨s, rfl⟩
  · rcases mem_mutate_place h1 with h2 | rfl | rfl
    · exact hdp l (mem_removeTotals h2)
    · rfl
    · show ((totalEntryWF pNew && (extractPlaceId pNew.link).isNone) || placeEntryWF pNew) = true
      rw [hpN, Bool.or_true]
  · show ((totalEntryWF (pTot s) && (extractPlaceId (pTot s).link).isNone) || placeEntryWF (pTot s)) = true
    rw [hpT s, hpTid s]
    rfl

/-- Claim C3: after every mutation, in both dimensions, the old total line
is removed first and the result carries a total line exactly when more than
one entry remains; that total is the formatter's output over exactly the
current entries (comma-joined subjects for users, comma-joined captured
place ids for places; the displayed count itself is supplied by the
external formatter, per spec §3).  Hypotheses state well-formedness of the
fetched card and of the formatter outputs. -/
theorem C3_total_invariant
    (uNew pNew : Entry) (uTot pTot : String → Entry) (login disp : String)
    (ua pa : TallyAction) (du dp : Desc)
    (hdu : ∀ l ∈ du.rest, lineUserWF l = true)
    (hdp : ∀ l ∈ dp.rest, placeLineWF l = true)
    (huN : userEntryWF uNew = true)
    (hpN : placeEntryWF pNew = true)
    (huT : ∀ s, totalEntryWF (uTot s) = true)
    (hpT : ∀ s, totalEntryWF (pTot s) = true)
    (hpTid : ∀ s, extractPlaceId (pTot s).link = none) :
    (totalLines (update_totals uNew uTot login ua du) =
      if 1 < (nonTotalEntries (update_totals uNew uTot login ua du)).length then
        [Line.entry (uTot (String.intercalate ","
          ((nonTotalEntries (update_totals uNew uTot login ua du)).map Entry.subject)))]
      else []) ∧
    (userMatches (update_totals uNew uTot login ua du) =
      (nonTotalEntries (update_totals uNew uTot login ua du)).map Entry.subject) ∧
    (totalLines (update_place_totals pNew pTot disp pa dp) =
      if 1 < (nonTotalEntries (update_place_totals pNew pTot disp pa dp)).length then
        [Line.entry (pTot (String.intercalate ","
          (placeIdMatches (update_place_totals pNew pTot disp pa dp))))]
      else []) ∧
    ((placeIdMatches (update_place_totals pNew pTot disp pa dp)).length =
      (nonTotalEntries (update_place_totals pNew pTot disp pa dp)).length) := by
  have hd2u : totalLines (mutate_user uNew login ua (removeTotals du)) = [] :=
    totalLines_mutate_user uNew login ua (removeTotals du)
      (matchesTotal_false_of_userWF huN) (totalLines_removeTotals du)
  have hTu : ∀ s, matchesTotal (Line.entry (uTot s)) = true :=
    fun s => matchesTotal_of_totalWF (huT s)
  obtain ⟨hum, htl⟩ := retotal_user_spec uTot (mutate_user uNew login ua (removeTotals du)) hTu hd2u
  have hbr : userMatches (update_totals uNew uTot login ua du) =
      (nonTotalEntries (update_totals uNew uTot login ua du)).map Entry.subject :=
    user_bridge (userWF_update_totals hdu huN huT)
  have hd2p : totalLines (mutate_place pNew disp pa (removeTotals dp)) = [] :=
    totalLines_mutate_place pNew disp pa (removeTotals dp)
      (matchesTotal_false_of_placeWF hpN) (totalLines_removeTotals dp)
  have hTp : ∀ s, matchesTotal (Line.entry (pTot s)) = true :=
    fun s => matchesTotal_of_totalWF (hpT s)
  obtain ⟨hpm, htlp⟩ := retotal_place_spec pTot (mutate_place pNew disp pa (removeTotals dp)) hTp hpTid hd2p
  have hbrp : (placeIdMatches (update_place_totals pNew pTot disp pa dp)).length =
      (nonTotalEntries (update_place_totals pNew pTot disp pa dp)).length :=
    place_bridge (placeWF_update_place_totals hdp hpN hpT hpTid)
  refine ⟨?_, hbr, ?_, hbrp⟩
  · show totalLines (retotal_user uTot (mutate_user uNew login ua (removeTotals du))) = _
    rw [htl]
    have hbr' : userMatches (retotal_user uTot (mutate_user uNew login ua (removeTotals du))) =
        (nonTotalEntries (update_totals uNew uTot login ua du)).map Entry.subject := hbr
    rw [hbr', List.length_map]
  · show totalLines (retotal_place pTot (mutate_place pNew disp pa (removeTotals dp))) = _
    rw [htlp]
    have hbrp' : (placeIdMatches (retotal_place pTot (mutate_place pNew disp pa (removeTotals dp)))).length =
        (nonTotalEntries (update_place_totals pNew pTot disp pa dp)).length := hbrp
    rw [hbrp']
    rfl

/-- Fixture: a fresh formatted user entry for `bob`. -/
def wNewU : Entry := ⟨"5", "v", "bob"⟩

/-- Claim C3 witness: the invariant applied to an `add` of `bob` on the
user card holding `alice`, and a `remove` of place `A` on the place card
holding `A` and `B`. -/
theorem C3_total_invariant_witness :
    (totalLines (update_totals wNewU stubTotal "alice" TallyAction.add descAlice) =
      if 1 < (nonTotalEntries (update_totals wNewU stubTotal "alice" TallyAction.add descAlice)).length then
        [Line.entry (stubTotal (String.intercalate ","
          ((nonTotalEntries (update_totals wNewU stubTotal "alice" TallyAction.add descAlice)).map Entry.subject)))]
      else []) ∧
    (userMatches (update_totals wNewU stubTotal "alice" TallyAction.add descAlice) =
      (nonTotalEntries (update_totals wNewU stubTotal "alice" TallyAction.add descAlice)).map Entry.subject) ∧
    (totalLines (update_place_totals entryB stubTotal "A" TallyAction.remove descAB) =
      if 1 < (nonTotalEntries (update_place_totals entryB stubTotal "A" TallyAction.remove descAB)).length then
        [Line.entry (stubTotal (String.intercalate ","
          (placeIdMatches (update_place_totals entryB stubTotal "A" TallyAction.remove descAB))))]
      else []) ∧
    ((placeIdMatches (update_place_totals entryB stubTotal "A" TallyAction.remove descAB)).length =
      (nonTotalEntries (update_place_totals entryB stubTotal "A" TallyAction.remove descAB)).length) :=
  C3_total_invariant wNewU entryB stubTotal stubTotal "alice" "A"
    TallyAction.add TallyAction.remove descAlice descAB
    (by decide) (by decide) (by decide) (by decide)
    (fun _ => (by decide : totalEntryWF (⟨"9", "t", "*total*"⟩ : Entry) = true))
    (fun _ => (by decide : totalEntryWF (⟨"9", "t", "*total*"⟩ : Entry) = true))
    (fun _ => (by decide : extractPlaceId "t" = none))
